import Mathlib

/-!
Shallow embedding of the `fipple` library (a Go helper for integration-testing
HTTP/REST APIs).  The two repository components are `Recorder` (builds and
dispatches requests, owns the base URL and an optional ephemeral test server)
and `Response` (wraps a dispatched response, normalizes its body, and offers
assertion helpers reporting through `testing.T`).

Modelling conventions:
* `testing.T` output is made explicit: every operation that can report returns
  the list of messages it emits, in order.  `Msg.error` models `t.Errorf`
  calls made by assertions, `Msg.print` models the `t.Errorf` call made inside
  `PrintFailure`, and `Msg.fatal` models `t.Fatal` (which aborts the test, so
  operations that can fail fatally return `Except Msg _` or pair an `Option`
  result with the emitted messages).
* Go byte strings are modelled as Lean `String`s.
* External collaborators (the HTTP transport, `encoding/json.Indent`,
  `net/url` parsing, the terminal colorizer, the random multipart boundary)
  are parameters of the operations that call them, so theorems quantify over
  their behaviour.
* `sync.Once` state is the boolean field `printed` (the model is sequential,
  matching the repository's single-caller contract).
-/

namespace Fipple

/-- A message reported through the `testing.T` collaborator. -/
inductive Msg where
  | print (text : String)
  | error (text : String)
  | fatal (text : String)
deriving DecidableEq

/-- Whether a message is the diagnostic emitted by `PrintFailure`. -/
def Msg.isPrint : Msg → Bool
  | .print _ => true
  | _ => false

/-- Number of `PrintFailure` diagnostics in an emitted message list. -/
def countPrint (msgs : List Msg) : Nat :=
  (msgs.filter Msg.isPrint).length

/-- Helper for `goContains`: substring test on character lists. -/
def containsAux (sub : List Char) : List Char → Bool
  | [] => sub.isEmpty
  | c :: rest => List.isPrefixOf sub (c :: rest) || containsAux sub rest

/-- Models Go `strings.Contains s sub`: does `sub` occur in `s`? -/
def goContains (s sub : String) : Bool :=
  containsAux sub.data s.data

/-- `sub` occurs in `s` (the propositional substring relation used to state
facts about reported message texts). -/
def hasSubstring (s sub : String) : Prop :=
  ∃ pre post : String, s = pre ++ (sub ++ post)

/-- The ephemeral `httptest.Server` owned by a handler-backed `Recorder`. -/
structure Server where
  closed : Bool
deriving DecidableEq

/-- The `Recorder` struct: base URL, the `Colorize` flag, and the optional
ephemeral server (`nil` when created by `NewURLRecorder`).  The `testing.T`
and `http.Client` collaborators are modelled as explicit message output and
transport-result parameters of the individual operations. -/
structure Recorder where
  baseURL : String
  Colorize : Bool
  server : Option Server
deriving DecidableEq

/-- One part of a multipart form body: field name, optional file name, and
the part's byte content. -/
structure Part where
  name : String
  filename : Option String
  content : String
deriving DecidableEq

/-- The body attached to a built request. -/
inductive ReqBody where
  | nilBody
  | raw (s : String)
  | multipart (boundary : String) (parts : List Part)
deriving DecidableEq

/-- An `http.Request` at this model's granularity: method, the full URL
string, the path component obtained when the URL was parsed, the
`Content-Type` header (if set), and the body. -/
structure Request where
  method : String
  url : String
  urlPath : String
  contentType : Option String
  body : ReqBody
deriving DecidableEq

/-- Models an `*os.File` passed to `NewMultipartRequest`: its name, the bytes
`io.Copy` obtains from it, and the read error (if any) its reader reports. -/
structure GoFile where
  Name : String
  content : String
  readErr : Option String
deriving DecidableEq

/-- The raw `*http.Response` handed back by the transport: status code,
declared `Content-Type`, the byte stream of the wire body, and the error (if
any) the stream's reader reports at the end. -/
structure HttpResp where
  StatusCode : Int
  contentType : String
  stream : String
  streamErr : Option String
deriving DecidableEq

/-- The `fipple.Response` struct.  It embeds the underlying `*http.Response`
(status code, `Content-Type` header, unread wire stream) together with the
originating request's method and URL path, the normalized `Body` of record,
the `sync.Once` state `printed`, and the bound recorder's `Colorize` flag. -/
structure Response where
  StatusCode : Int
  contentType : String
  reqMethod : String
  reqPath : String
  stream : String
  streamErr : Option String
  Body : String
  printed : Bool
  recColorize : Bool
deriving DecidableEq

/-- `NewRecorder`: a recorder backed by a freshly started ephemeral server
for an in-process handler; `serverURL` is the URL the server reports. -/
def NewRecorder (serverURL : String) : Recorder :=
  { baseURL := serverURL, Colorize := true, server := some { closed := false } }

/-- `NewURLRecorder`: a recorder that targets `baseURL` directly and owns no
ephemeral server. -/
def NewURLRecorder (baseURL : String) : Recorder :=
  { baseURL := baseURL, Colorize := true, server := none }

/-- `Recorder.Close`: closes the owned server if there is one.  The boolean
records whether a server shutdown was attempted. -/
def Recorder.Close (r : Recorder) : Recorder × Bool :=
  match r.server with
  | some s => ({ r with server := some { s with closed := true } }, true)
  | none => (r, false)

/-- `Recorder.newResponse`: wraps a raw transport response, binding it to the
recorder and to the request it answers.  `Body` starts empty (Go zero value)
and the `sync.Once` starts unused. -/
def Recorder.newResponse (rec : Recorder) (req : Request) (h : HttpResp) : Response :=
  { StatusCode := h.StatusCode
    contentType := h.contentType
    reqMethod := req.method
    reqPath := req.urlPath
    stream := h.stream
    streamErr := h.streamErr
    Body := ""
    printed := false
    recColorize := rec.Colorize }

/-- Models Go `http.NewRequest method fullURL body`: `parseURL` abstracts
`net/url` parsing and returns the parsed path component on success, `none` on
a malformed URL (in which case `http.NewRequest` returns an error). -/
def goHttpNewRequest (parseURL : String → Option String) (method fullURL : String)
    (body : ReqBody) : Except String Request :=
  match parseURL fullURL with
  | some path =>
      .ok { method := method, url := fullURL, urlPath := path,
            contentType := none, body := body }
  | none => .error ("parse " ++ (fullURL ++ ": invalid URL"))

/-- `Recorder.NewRequest`: concatenates the base URL with `path` and builds a
bodyless request; a URL error is reported through `t.Fatal`. -/
def Recorder.NewRequest (parseURL : String → Option String) (rec : Recorder)
    (method path : String) : Except Msg Request :=
  match goHttpNewRequest parseURL method (rec.baseURL ++ path) ReqBody.nilBody with
  | .ok req => .ok req
  | .error e => .error (Msg.fatal e)

/-- The field-writing loop of `NewMultipartRequest`: `form.WriteField` for
each scalar field, stopping at the first error.  `writeFieldErr` abstracts
the error (if any) the multipart writer reports for a given field. -/
def writeFields (writeFieldErr : String → String → Option String) :
    List (String × String) → Except String (List Part)
  | [] => .ok []
  | (k, v) :: rest =>
      match writeFieldErr k v with
      | some e => .error e
      | none =>
          match writeFields writeFieldErr rest with
          | .error e => .error e
          | .ok parts => .ok (Part.mk k none v :: parts)

/-- The file-writing loop of `NewMultipartRequest`: `form.CreateFormFile`
followed by `io.Copy` for each file, stopping at the first copy error (a copy
fails exactly when the file's reader reports an error). -/
def writeFiles : List (String × GoFile) → Except String (List Part)
  | [] => .ok []
  | (k, f) :: rest =>
      match f.readErr with
      | some e => .error e
      | none =>
          match writeFiles rest with
          | .error e => .error e
          | .ok parts => .ok (Part.mk k (some f.Name) f.content :: parts)

/-- `Recorder.NewMultipartRequest`: writes the scalar fields and the file
parts into a multipart body, closes the form, builds the request and sets the
`Content-Type` header to the multipart media type with the writer's
`boundary`.  Any part-write, stream-copy or URL error goes to `t.Fatal`. -/
def Recorder.NewMultipartRequest (parseURL : String → Option String)
    (writeFieldErr : String → String → Option String) (boundary : String)
    (rec : Recorder) (method path : String)
    (fields : List (String × String)) (files : List (String × GoFile)) :
    Except Msg Request :=
  let fullURL := rec.baseURL ++ path
  match writeFields writeFieldErr fields with
  | .error e => .error (Msg.fatal e)
  | .ok fieldParts =>
      match writeFiles files with
      | .error e => .error (Msg.fatal e)
      | .ok fileParts =>
          match goHttpNewRequest parseURL method fullURL
              (ReqBody.multipart boundary (fieldParts ++ fileParts)) with
          | .error e => .error (Msg.fatal e)
          | .ok req =>
              .ok { req with
                    contentType := some ("multipart/form-data; boundary=" ++ boundary) }

/-- Models a `mime/multipart` reader at this granularity: it recovers the
parts exactly when the declared `Content-Type` carries the same boundary the
body was written with. -/
def readMultipart (contentType : Option String) (body : ReqBody) : Option (List Part) :=
  match body with
  | ReqBody.multipart b parts =>
      if contentType = some ("multipart/form-data; boundary=" ++ b) then some parts
      else none
  | _ => none

/-- `Response.readBody`: reads the wire stream into `Body`.  If the declared
`Content-Type` contains `application/json` the bytes are fed through
`json.Indent` (abstracted by `jsonIndent`, which returns the bytes it wrote
together with the error, if any) with prefix `""` and indent `"\t"`;
otherwise the raw bytes are appended verbatim.  The code discards both the
`ioutil.ReadAll`/`ReadFrom` read error and the `json.Indent` error, and
reports nothing. -/
def Response.readBody (jsonIndent : String → String × Option String)
    (r : Response) : Response :=
  if goContains r.contentType "application/json" then
    let body := r.stream
    let res := jsonIndent body
    { r with Body := r.Body ++ res.1, stream := "" }
  else
    { r with Body := r.Body ++ r.stream, stream := "" }

/-- `Recorder.Do`: sends the request through the owned client
(`clientResult` abstracts the transport outcome), fails fatally on a
transport error, and otherwise wraps the raw response and normalizes its
body via `readBody` before returning it. -/
def Recorder.Do (jsonIndent : String → String × Option String) (rec : Recorder)
    (req : Request) (clientResult : Except String HttpResp) :
    Option Response × List Msg :=
  match clientResult with
  | .error e => (none, [Msg.fatal e])
  | .ok h => (some ((rec.newResponse req h).readBody jsonIndent), [])

/-- The `t.Errorf` message of a failed `ExpectCode`. -/
def expectCodeMsg (code actual : Int) : String :=
  "Expected response code " ++ (toString code ++ (" but got: " ++ toString actual))

/-- The `t.Errorf` message of a failed `ExpectBodyContains`. -/
def expectContainsMsg (str : String) : String :=
  "Expected response to contain `" ++ (str ++ "` but it did not.")

/-- `Response.colorBody`: the colorized body, `color.Sprintf "@{.}%s"`
abstracted by the wrapper `cw`. -/
def Response.colorBody (cw : String → String) (r : Response) : String :=
  cw r.Body

/-- `Response.PrintFailure`: emits one diagnostic naming the originating
request's method and URL path; an empty `Body` yields the empty-body marker,
a non-empty `Body` is included in full, colorized first when the bound
recorder's `Colorize` flag is set. -/
def Response.PrintFailure (cw : String → String) (r : Response) : List Msg :=
  if r.Body = "" then
    [Msg.print (r.reqMethod ++ (" request to " ++
      (r.reqPath ++ " failed. Response was empty.")))]
  else
    let body := if r.recColorize then r.colorBody cw else r.Body
    [Msg.print (r.reqMethod ++ (" request to " ++
      (r.reqPath ++ (" failed. Response was: \n" ++ body))))]

/-- `Response.PrintFailureOnce`: `r.once.Do(r.PrintFailure)` — runs
`PrintFailure` only if this response has not printed yet. -/
def Response.PrintFailureOnce (cw : String → String) (r : Response) :
    Response × List Msg :=
  if r.printed then (r, [])
  else ({ r with printed := true }, r.PrintFailure cw)

/-- `Response.ExpectCode`: on a status-code mismatch, prints the diagnostic
once and records a non-fatal failure naming expected and actual codes. -/
def Response.ExpectCode (cw : String → String) (r : Response) (code : Int) :
    Response × List Msg :=
  if r.StatusCode ≠ code then
    let res := r.PrintFailureOnce cw
    (res.1, res.2 ++ [Msg.error (expectCodeMsg code r.StatusCode)])
  else (r, [])

/-- `Response.ExpectOk`: shorthand for `ExpectCode 200`. -/
def Response.ExpectOk (cw : String → String) (r : Response) : Response × List Msg :=
  r.ExpectCode cw 200

/-- `Response.ExpectBodyContains`: on a missing substring, prints the
diagnostic once and records a non-fatal failure naming the substring. -/
def Response.ExpectBodyContains (cw : String → String) (r : Response) (str : String) :
    Response × List Msg :=
  if goContains r.Body str = false then
    let res := r.PrintFailureOnce cw
    (res.1, res.2 ++ [Msg.error (expectContainsMsg str)])
  else (r, [])

/-- One call in a sequence of public `Response` operations. -/
inductive Op where
  | expectOk
  | expectCode (code : Int)
  | expectBodyContains (s : String)
  | printFailure
  | printFailureOnce
deriving DecidableEq

/-- Runs one `Response` operation, returning the updated response and the
messages it emitted. -/
def applyOp (cw : String → String) (r : Response) : Op → Response × List Msg
  | .expectOk => r.ExpectOk cw
  | .expectCode c => r.ExpectCode cw c
  | .expectBodyContains s => r.ExpectBodyContains cw s
  | .printFailure => (r, r.PrintFailure cw)
  | .printFailureOnce => r.PrintFailureOnce cw

/-- Runs a sequence of `Response` operations, accumulating the emitted
messages in order. -/
def runOps (cw : String → String) : List Op → Response → Response × List Msg
  | [], r => (r, [])
  | op :: rest, r =>
      let res := applyOp cw r op
      let res2 := runOps cw rest res.1
      (res2.1, res.2 ++ res2.2)

/-- A concrete response used to instantiate universally quantified theorems:
a 200 plain-text response with body `"hello"`, not yet printed. -/
def respEx : Response :=
  { StatusCode := 200, contentType := "text/plain", reqMethod := "GET",
    reqPath := "/users", stream := "", streamErr := none, Body := "hello",
    printed := false, recColorize := false }

/-- `respEx` after its diagnostic has been printed. -/
def respPrinted : Response :=
  { respEx with printed := true }

/-- A concrete URL-backed recorder. -/
def recEx : Recorder :=
  { baseURL := "http://example.com", Colorize := true, server := none }

/-- A concrete bodyless GET request. -/
def reqJson : Request :=
  { method := "GET", url := "http://example.com/a", urlPath := "/a",
    contentType := none, body := ReqBody.nilBody }

/-- A transport response declared as JSON whose payload is the single byte
`\x7b`, which is not complete JSON, so `json.Indent` reports an error. -/
def httpRespBadJson : HttpResp :=
  { StatusCode := 200, contentType := "application/json", stream := "\x7b",
    streamErr := none }

/-- A `json.Indent` behaviour that reports an error (and writes nothing), as
the real `encoding/json.Indent` does on truncated input. -/
def jsonIndentFail : String → String × Option String :=
  fun _ => ("", some "unexpected end of JSON input")

/-- A URL parse behaviour that accepts every URL, returning path `/users`. -/
def someParse : String → Option String :=
  fun _ => some "/users"

/-- The request `NewRequest` builds from `someParse` on recorder
`NewURLRecorder "http://x.com"`, method GET and path `/users`. -/
def reqW : Request :=
  { method := "GET", url := "http://x.com/users", urlPath := "/users",
    contentType := none, body := ReqBody.nilBody }

/-- A concrete file attachment whose reader never fails. -/
def fileEx : GoFile :=
  { Name := "x.txt", content := "hi", readErr := none }

/-- A `form.WriteField` behaviour that never fails (as with an in-memory
`bytes.Buffer` destination). -/
def wfeNone : String → String → Option String :=
  fun _ _ => none

/-- A URL parse behaviour that accepts every URL, returning path `/upload`. -/
def parseUp : String → Option String :=
  fun _ => some "/upload"

/-- The request `NewMultipartRequest` builds from one scalar field and one
file on `recEx` with boundary `bnd`. -/
def reqMW : Request :=
  { method := "POST", url := "http://example.com/upload", urlPath := "/upload",
    contentType := some "multipart/form-data; boundary=bnd",
    body := ReqBody.multipart "bnd"
      [Part.mk "a" none "1", Part.mk "f" (some "x.txt") "hi"] }

/- Helper lemmas about the substring relation. -/

theorem hs_self (s : String) : hasSubstring s s :=
  ⟨"", "", by rw [String.append_empty, String.empty_append]⟩

theorem hs_append_left (x y sub : String) (h : hasSubstring y sub) :
    hasSubstring (x ++ y) sub := by
  obtain ⟨p, q, hy⟩ := h
  exact ⟨x ++ p, q, by rw [hy, ← String.append_assoc]⟩

theorem hs_append_right (x y sub : String) (h : hasSubstring x sub) :
    hasSubstring (x ++ y) sub := by
  obtain ⟨p, q, hx⟩ := h
  exact ⟨p, q ++ y, by rw [hx, String.append_assoc, String.append_assoc]⟩

theorem hs_trans (s x sub : String) (h1 : hasSubstring s x)
    (h2 : hasSubstring x sub) : hasSubstring s sub := by
  obtain ⟨p, q, hp⟩ := h1
  obtain ⟨a, b, ha⟩ := h2
  refine ⟨p ++ a, b ++ q, ?_⟩
  rw [hp, ha]
  simp only [String.append_assoc]

theorem expectCodeMsg_has_code (code actual : Int) :
    hasSubstring (expectCodeMsg code actual) (toString code) :=
  ⟨"Expected response code ", " but got: " ++ toString actual, rfl⟩

theorem expectCodeMsg_has_actual (code actual : Int) :
    hasSubstring (expectCodeMsg code actual) (toString actual) := by
  unfold expectCodeMsg
  exact hs_append_left _ _ _ (hs_append_left _ _ _ (hs_append_left _ _ _ (hs_self _)))

theorem expectContainsMsg_has_str (str : String) :
    hasSubstring (expectContainsMsg str) str :=
  ⟨"Expected response to contain `", "` but it did not.", rfl⟩

/- Helper lemmas about the printing and assertion operations. -/

theorem countPrint_append (a b : List Msg) :
    countPrint (a ++ b) = countPrint a + countPrint b := by
  simp [countPrint, List.filter_append]

theorem PrintFailure_shape (cw : String → String) (r : Response) :
    ∃ t, r.PrintFailure cw = [Msg.print t] := by
  unfold Response.PrintFailure
  split
  · exact ⟨_, rfl⟩
  · exact ⟨_, rfl⟩

theorem countPrint_PrintFailure (cw : String → String) (r : Response) :
    countPrint (r.PrintFailure cw) = 1 := by
  obtain ⟨t, ht⟩ := PrintFailure_shape cw r
  rw [ht]
  simp [countPrint, Msg.isPrint]

theorem PrintFailureOnce_printed (cw : String → String) (r : Response) :
    ((r.PrintFailureOnce cw).1).printed = true := by
  by_cases h : r.printed <;> simp [Response.PrintFailureOnce, h]

theorem PrintFailureOnce_body (cw : String → String) (r : Response) :
    ((r.PrintFailureOnce cw).1).Body = r.Body := by
  by_cases h : r.printed <;> simp [Response.PrintFailureOnce, h]

theorem PrintFailureOnce_msgs (cw : String → String) (r : Response) :
    (r.PrintFailureOnce cw).2 = if r.printed then [] else r.PrintFailure cw := by
  by_cases h : r.printed <;> simp [Response.PrintFailureOnce, h]

theorem PrintFailureOnce_already (cw : String → String) (r : Response)
    (h : r.printed = true) : r.PrintFailureOnce cw = (r, []) := by
  simp [Response.PrintFailureOnce, h]

theorem PrintFailureOnce_invariant (cw : String → String) (r : Response) :
    countPrint (r.PrintFailureOnce cw).2 + (if r.printed then 1 else 0) = 1 := by
  by_cases h : r.printed
  · simp [Response.PrintFailureOnce, h, countPrint]
  · simp [Response.PrintFailureOnce, h, countPrint_PrintFailure]

theorem ExpectCode_eq (cw : String → String) (r : Response) (code : Int)
    (h : r.StatusCode = code) : r.ExpectCode cw code = (r, []) := by
  simp [Response.ExpectCode, h]

theorem ExpectCode_ne (cw : String → String) (r : Response) (code : Int)
    (h : r.StatusCode ≠ code) :
    r.ExpectCode cw code =
      ((r.PrintFailureOnce cw).1,
        (r.PrintFailureOnce cw).2 ++ [Msg.error (expectCodeMsg code r.StatusCode)]) := by
  simp [Response.ExpectCode, h]

theorem ExpectCode_body (cw : String → String) (r : Response) (code : Int) :
    ((r.ExpectCode cw code).1).Body = r.Body := by
  by_cases h : r.StatusCode = code
  · rw [ExpectCode_eq cw r code h]
  · rw [ExpectCode_ne cw r code h]
    exact PrintFailureOnce_body cw r

theorem ExpectBodyContains_pass (cw : String → String) (r : Response) (s : String)
    (h : goContains r.Body s = true) : r.ExpectBodyContains cw s = (r, []) := by
  simp [Response.ExpectBodyContains, h]

theorem ExpectBodyContains_fail (cw : String → String) (r : Response) (s : String)
    (h : goContains r.Body s = false) :
    r.ExpectBodyContains cw s =
      ((r.PrintFailureOnce cw).1,
        (r.PrintFailureOnce cw).2 ++ [Msg.error (expectContainsMsg s)]) := by
  simp [Response.ExpectBodyContains, h]

theorem ExpectBodyContains_body (cw : String → String) (r : Response) (s : String) :
    ((r.ExpectBodyContains cw s).1).Body = r.Body := by
  by_cases h : goContains r.Body s = false
  · rw [ExpectBodyContains_fail cw r s h]
    exact PrintFailureOnce_body cw r
  · rw [ExpectBodyContains_pass cw r s (by revert h; cases goContains r.Body s <;> simp)]

theorem applyOp_printed_mono (cw : String → String) (r : Response) (op : Op)
    (h : r.printed = true) : ((applyOp cw r op).1).printed = true := by
  cases op with
  | expectOk =>
      by_cases hc : r.StatusCode = 200
      · simp [applyOp, Response.ExpectOk, ExpectCode_eq cw r 200 hc, h]
      · simp [applyOp, Response.ExpectOk, ExpectCode_ne cw r 200 hc,
          PrintFailureOnce_printed]
  | expectCode c =>
      by_cases hc : r.StatusCode = c
      · simp [applyOp, ExpectCode_eq cw r c hc, h]
      · simp [applyOp, ExpectCode_ne cw r c hc, PrintFailureOnce_printed]
  | expectBodyContains s =>
      by_cases hc : goContains r.Body s = false
      · simp [applyOp, ExpectBodyContains_fail cw r s hc, PrintFailureOnce_printed]
      · rw [applyOp, ExpectBodyContains_pass cw r s (by revert hc; cases goContains r.Body s <;> simp)]
        exact h
  | printFailure => exact h
  | printFailureOnce => simp [applyOp, PrintFailureOnce_printed]

theorem applyOp_countPrint (cw : String → String) (r : Response) (op : Op)
    (hop : op ≠ Op.printFailure) :
    countPrint (applyOp cw r op).2 + (if r.printed then 1 else 0) =
      (if ((applyOp cw r op).1).printed then 1 else 0) := by
  cases op with
  | expectOk =>
      by_cases hc : r.StatusCode = 200
      · simp [applyOp, Response.ExpectOk, ExpectCode_eq cw r 200 hc, countPrint]
      · rw [applyOp, Response.ExpectOk, ExpectCode_ne cw r 200 hc]
        simp only [countPrint_append, PrintFailureOnce_printed, if_true]
        have h0 : countPrint [Msg.error (expectCodeMsg 200 r.StatusCode)] = 0 := rfl
        rw [h0]
        simpa using PrintFailureOnce_invariant cw r
  | expectCode c =>
      by_cases hc : r.StatusCode = c
      · simp [applyOp, ExpectCode_eq cw r c hc, countPrint]
      · rw [applyOp, ExpectCode_ne cw r c hc]
        simp only [countPrint_append, PrintFailureOnce_printed, if_true]
        have h0 : countPrint [Msg.error (expectCodeMsg c r.StatusCode)] = 0 := rfl
        rw [h0]
        simpa using PrintFailureOnce_invariant cw r
  | expectBodyContains s =>
      by_cases hc : goContains r.Body s = false
      · rw [applyOp, ExpectBodyContains_fail cw r s hc]
        simp only [countPrint_append, PrintFailureOnce_printed, if_true]
        have h0 : countPrint [Msg.error (expectContainsMsg s)] = 0 := rfl
        rw [h0]
        simpa using PrintFailureOnce_invariant cw r
      · rw [applyOp, ExpectBodyContains_pass cw r s (by revert hc; cases goContains r.Body s <;> simp)]
        simp [countPrint]
  | printFailure => exact absurd rfl hop
  | printFailureOnce =>
      rw [applyOp]
      simp only [PrintFailureOnce_printed, if_true]
      exact PrintFailureOnce_invariant cw r

theorem runOps_printed_mono (cw : String → String) (ops : List Op) (r : Response)
    (h : r.printed = true) : ((runOps cw ops r).1).printed = true := by
  induction ops generalizing r with
  | nil => exact h
  | cons op rest ih =>
      simp only [runOps]
      exact ih _ (applyOp_printed_mono cw r op h)

theorem runOps_countPrint (cw : String → String) (ops : List Op)
    (hops : Op.printFailure ∉ ops) (r : Response) :
    countPrint (runOps cw ops r).2 + (if r.printed then 1 else 0) =
      (if ((runOps cw ops r).1).printed then 1 else 0) := by
  induction ops generalizing r with
  | nil => simp [runOps, countPrint]
  | cons op rest ih =>
      have hop : op ≠ Op.printFailure := by
        intro he
        exact hops (by simp [he])
      have h1 := applyOp_countPrint cw r op hop
      have h2 := ih (fun hm => hops (List.mem_cons_of_mem _ hm)) (applyOp cw r op).1
      simp only [runOps, countPrint_append]
      omega

theorem runOps_mem_printed (cw : String → String) (ops : List Op) (r : Response)
    (h : Op.printFailureOnce ∈ ops) : ((runOps cw ops r).1).printed = true := by
  induction ops generalizing r with
  | nil => cases h
  | cons op rest ih =>
      simp only [runOps]
      by_cases he : op = Op.printFailureOnce
      · subst he
        exact runOps_printed_mono cw rest _ (by simp [applyOp, PrintFailureOnce_printed])
      · have hm : Op.printFailureOnce ∈ rest := by
          cases h with
          | head => exact absurd rfl he
          | tail _ hm => exact hm
        exact ih _ hm

theorem writeFields_ok (wfe : String → String → Option String)
    (fields : List (String × String)) (h : ∀ kv ∈ fields, wfe kv.1 kv.2 = none) :
    writeFields wfe fields =
      Except.ok (fields.map fun kv => Part.mk kv.1 none kv.2) := by
  induction fields with
  | nil => rfl
  | cons kv rest ih =>
      obtain ⟨k, v⟩ := kv
      have h1 : wfe k v = none := h (k, v) (by simp)
      have h2 := ih (fun kv hm => h kv (List.mem_cons_of_mem _ hm))
      simp [writeFields, h1, h2]

theorem writeFiles_ok (files : List (String × GoFile))
    (h : ∀ kf ∈ files, kf.2.readErr = none) :
    writeFiles files =
      Except.ok (files.map fun kf => Part.mk kf.1 (some kf.2.Name) kf.2.content) := by
  induction files with
  | nil => rfl
  | cons kf rest ih =>
      obtain ⟨k, f⟩ := kf
      have h1 : f.readErr = none := h (k, f) (by simp)
      have h2 := ih (fun kf hm => h kf (List.mem_cons_of_mem _ hm))
      simp [writeFiles, h1, h2]

/-- C1: for every dispatched response the body of record is computed exactly
once, inside `Do` at dispatch time: the response `Do` returns already has
`Body` equal to the `json.Indent`-re-encoding of the raw payload when the
declared `Content-Type` contains the JSON marker and to the raw payload bytes
verbatim otherwise, and no assertion operation ever changes `Body`
afterwards. -/
theorem do_normalizes_body_once (jsonIndent : String → String × Option String)
    (cw : String → String) (rec : Recorder) (req : Request) (h : HttpResp) :
    (∃ resp, rec.Do jsonIndent req (Except.ok h) = (some resp, []) ∧
      resp.Body = (if goContains h.contentType "application/json" = true
        then (jsonIndent h.stream).1 else h.stream)) ∧
    (∀ r : Response, ∀ code : Int, ((r.ExpectCode cw code).1).Body = r.Body) ∧
    (∀ r : Response, ∀ s : String, ((r.ExpectBodyContains cw s).1).Body = r.Body) ∧
    (∀ r : Response, ((r.ExpectOk cw).1).Body = r.Body) ∧
    (∀ r : Response, ((r.PrintFailureOnce cw).1).Body = r.Body) := by
  refine ⟨⟨(rec.newResponse req h).readBody jsonIndent, rfl, ?_⟩,
    fun r code => ExpectCode_body cw r code,
    fun r s => ExpectBodyContains_body cw r s,
    fun r => ExpectCode_body cw r 200,
    fun r => PrintFailureOnce_body cw r⟩
  by_cases hc : goContains h.contentType "application/json" = true
  · simp [Response.readBody, Recorder.newResponse, hc, String.empty_append]
  · simp [Response.readBody, Recorder.newResponse, hc, String.empty_append]

/-- C2: `ExpectCode code` records a non-fatal failure exactly when the status
code differs from `code`; on a mismatch the diagnostic print runs first (only
if not already printed for this response) and the recorded message names both
the expected and the actual code; on a match nothing is recorded and the
response is unchanged. -/
theorem expectCode_mismatch_contract (cw : String → String) (r : Response)
    (code : Int) :
    (r.StatusCode = code → r.ExpectCode cw code = (r, [])) ∧
    (r.StatusCode ≠ code →
      (r.ExpectCode cw code).2 =
        (if r.printed then [] else r.PrintFailure cw) ++
          [Msg.error (expectCodeMsg code r.StatusCode)] ∧
      hasSubstring (expectCodeMsg code r.StatusCode) (toString code) ∧
      hasSubstring (expectCodeMsg code r.StatusCode) (toString r.StatusCode) ∧
      ((r.ExpectCode cw code).1).printed = true) := by
  refine ⟨fun h => ExpectCode_eq cw r code h, fun h => ⟨?_, ?_, ?_, ?_⟩⟩
  · rw [ExpectCode_ne cw r code h, PrintFailureOnce_msgs]
  · exact expectCodeMsg_has_code code r.StatusCode
  · exact expectCodeMsg_has_actual code r.StatusCode
  · rw [ExpectCode_ne cw r code h]
    exact PrintFailureOnce_printed cw r

/-- C2 witness: `ExpectCode 404` against the concrete 200 response records a
message naming both codes and marks the response printed. -/
theorem expectCode_mismatch_contract_witness :
    hasSubstring (expectCodeMsg 404 respEx.StatusCode) (toString (404 : Int)) ∧
    hasSubstring (expectCodeMsg 404 respEx.StatusCode) (toString respEx.StatusCode) ∧
    ((respEx.ExpectCode id 404).1).printed = true := by
  have h : respEx.StatusCode ≠ (404 : Int) := by decide
  have hc := (expectCode_mismatch_contract id respEx 404).2 h
  exact ⟨hc.2.1, hc.2.2.1, hc.2.2.2⟩

/-- C3: starting from a response whose diagnostic has not been printed, any
sequence of assertion and `PrintFailureOnce` calls executes `PrintFailure` at
most once, exactly once as soon as the sequence contains a direct
`PrintFailureOnce` call, and a `PrintFailureOnce` call on an
already-printed response is a no-op. -/
theorem printFailureOnce_idempotent (cw : String → String) (r : Response)
    (ops : List Op) (hr : r.printed = false) (hops : Op.printFailure ∉ ops) :
    countPrint (runOps cw ops r).2 ≤ 1 ∧
    (Op.printFailureOnce ∈ ops → countPrint (runOps cw ops r).2 = 1) ∧
    (∀ r2 : Response, r2.printed = true → r2.PrintFailureOnce cw = (r2, [])) := by
  have hinv := runOps_countPrint cw ops hops r
  rw [hr] at hinv
  simp only [if_neg Bool.false_ne_true, Nat.add_zero] at hinv
  refine ⟨?_, fun hm => ?_, fun r2 h2 => PrintFailureOnce_already cw r2 h2⟩
  · rw [hinv]
    split <;> omega
  · rw [hinv, runOps_mem_printed cw ops r hm, if_pos rfl]

/-- C3 witness: two consecutive `PrintFailureOnce` calls on the concrete
unprinted response produce exactly one diagnostic. -/
theorem printFailureOnce_idempotent_witness :
    countPrint (runOps id [Op.printFailureOnce, Op.printFailureOnce] respEx).2 = 1 :=
  (printFailureOnce_idempotent id respEx [Op.printFailureOnce, Op.printFailureOnce]
    (by decide) (by decide)).2.1 (by decide)

/-- C4 counterexample: dispatching a response declared `application/json`
whose payload `\x7b` makes `json.Indent` report an error produces no report
at all — `readBody` discards the read and indent errors, so the dispatch
emits an empty message list even though an error arose. -/
theorem readBody_error_dropped_counterexample :
    (jsonIndentFail httpRespBadJson.stream).2 = some "unexpected end of JSON input" ∧
    recEx.Do jsonIndentFail reqJson (Except.ok httpRespBadJson) =
      (some ((recEx.newResponse reqJson httpRespBadJson).readBody jsonIndentFail), []) ∧
    countPrint (recEx.Do jsonIndentFail reqJson (Except.ok httpRespBadJson)).2 = 0 :=
  ⟨rfl, rfl, rfl⟩

/-- C4 amended: assertion mismatches and transport-level fatal paths always
produce a human-readable message identifying what was expected versus what
was observed, but errors arising while reading and JSON-indenting the
response body during normalization are silently dropped — dispatch emits no
message for them. -/
theorem error_reporting_amended (cw : String → String)
    (jsonIndent : String → String × Option String) (rec : Recorder)
    (req : Request) (h : HttpResp) (r : Response) (code : Int) (s : String) :
    (rec.Do jsonIndent req (Except.ok h)).2 = [] ∧
    (∀ e, rec.Do jsonIndent req (Except.error e) = (none, [Msg.fatal e])) ∧
    (r.StatusCode ≠ code →
      (r.ExpectCode cw code).2 =
        (r.PrintFailureOnce cw).2 ++ [Msg.error (expectCodeMsg code r.StatusCode)] ∧
      hasSubstring (expectCodeMsg code r.StatusCode) (toString code) ∧
      hasSubstring (expectCodeMsg code r.StatusCode) (toString r.StatusCode)) ∧
    (goContains r.Body s = false →
      (r.ExpectBodyContains cw s).2 =
        (r.PrintFailureOnce cw).2 ++ [Msg.error (expectContainsMsg s)] ∧
      hasSubstring (expectContainsMsg s) s) := by
  refine ⟨rfl, fun e => rfl, fun hne => ⟨?_, ?_, ?_⟩, fun hb => ⟨?_, ?_⟩⟩
  · rw [ExpectCode_ne cw r code hne]
  · exact expectCodeMsg_has_code code r.StatusCode
  · exact expectCodeMsg_has_actual code r.StatusCode
  · rw [ExpectBodyContains_fail cw r s hb]
  · exact expectContainsMsg_has_str s

/-- C4 amended witness: at the concrete 200 response, a failed `ExpectCode
404` and a failed `ExpectBodyContains "zzz"` each record a message naming the
expectation. -/
theorem error_reporting_amended_witness :
    hasSubstring (expectCodeMsg 404 respEx.StatusCode) (toString (404 : Int)) ∧
    hasSubstring (expectContainsMsg "zzz") "zzz" := by
  have hc := error_reporting_amended id jsonIndentFail recEx reqJson httpRespBadJson
    respEx 404 "zzz"
  exact ⟨(hc.2.2.1 (by decide)).2.1, (hc.2.2.2 (by decide)).2⟩

/-- C5: a request built by `NewRequest` has URL equal to the recorder's base
address concatenated with the path (and nothing else), the given method, and
no body; a malformed resulting URL makes the operation fail fatally. -/
theorem newRequest_url_concatenation (parseURL : String → Option String)
    (rec : Recorder) (method path : String) :
    (∀ req, rec.NewRequest parseURL method path = Except.ok req →
      req.url = rec.baseURL ++ path ∧ req.method = method ∧
      req.body = ReqBody.nilBody) ∧
    (parseURL (rec.baseURL ++ path) = none →
      ∃ e, rec.NewRequest parseURL method path = Except.error (Msg.fatal e)) := by
  constructor
  · intro req hreq
    cases hp : parseURL (rec.baseURL ++ path) with
    | some p =>
        simp only [Recorder.NewRequest, goHttpNewRequest, hp] at hreq
        cases hreq
        exact ⟨rfl, rfl, rfl⟩
    | none =>
        simp [Recorder.NewRequest, goHttpNewRequest, hp] at hreq
  · intro hp
    refine ⟨"parse " ++ (rec.baseURL ++ path ++ ": invalid URL"), ?_⟩
    simp [Recorder.NewRequest, goHttpNewRequest, hp]

/-- C5 witness: on a recorder with base `http://x.com`, `NewRequest GET
/users` yields the concrete request `reqW` whose URL is the concatenation. -/
theorem newRequest_url_concatenation_witness :
    (NewURLRecorder "http://x.com").NewRequest someParse "GET" "/users" =
      Except.ok reqW ∧
    reqW.url = (NewURLRecorder "http://x.com").baseURL ++ "/users" ∧
    reqW.method = "GET" ∧ reqW.body = ReqBody.nilBody := by
  have h1 : (NewURLRecorder "http://x.com").NewRequest someParse "GET" "/users" =
      Except.ok reqW := rfl
  exact ⟨h1, (newRequest_url_concatenation someParse
    (NewURLRecorder "http://x.com") "GET" "/users").1 reqW h1⟩

/-- C6: a multipart request built from N scalar fields and M file
attachments carries a body that, read back with the boundary recorded in the
`Content-Type` header, yields exactly N+M parts whose names are the input
keys and whose file contents equal the source bytes; any part-write or
stream-copy error fails fatally. -/
theorem multipart_roundtrip (parseURL : String → Option String)
    (wfe : String → String → Option String) (boundary : String) (rec : Recorder)
    (method path : String) (fields : List (String × String))
    (files : List (String × GoFile)) :
    ((∀ kv ∈ fields, wfe kv.1 kv.2 = none) → (∀ kf ∈ files, kf.2.readErr = none) →
      ∀ p, parseURL (rec.baseURL ++ path) = some p →
      ∃ req, rec.NewMultipartRequest parseURL wfe boundary method path fields files =
          Except.ok req ∧
        readMultipart req.contentType req.body =
          some (fields.map (fun kv => Part.mk kv.1 none kv.2) ++
            files.map (fun kf => Part.mk kf.1 (some kf.2.Name) kf.2.content)) ∧
        (fields.map (fun kv => Part.mk kv.1 none kv.2) ++
          files.map (fun kf => Part.mk kf.1 (some kf.2.Name) kf.2.content)).length =
            fields.length + files.length ∧
        (fields.map (fun kv => Part.mk kv.1 none kv.2) ++
          files.map (fun kf => Part.mk kf.1 (some kf.2.Name) kf.2.content)).map
            Part.name = fields.map Prod.fst ++ files.map Prod.fst) ∧
    (∀ e, writeFields wfe fields = Except.error e →
      rec.NewMultipartRequest parseURL wfe boundary method path fields files =
        Except.error (Msg.fatal e)) ∧
    (∀ fieldParts e, writeFields wfe fields = Except.ok fieldParts →
      writeFiles files = Except.error e →
      rec.NewMultipartRequest parseURL wfe boundary method path fields files =
        Except.error (Msg.fatal e)) := by
  refine ⟨fun hf hfl p hp => ?_, fun e he => ?_, fun fieldParts e h1 h2 => ?_⟩
  · have h1 := writeFields_ok wfe fields hf
    have h2 := writeFiles_ok files hfl
    refine ⟨{ method := method, url := rec.baseURL ++ path, urlPath := p,
              contentType := some ("multipart/form-data; boundary=" ++ boundary),
              body := ReqBody.multipart boundary
                (fields.map (fun kv => Part.mk kv.1 none kv.2) ++
                  files.map (fun kf => Part.mk kf.1 (some kf.2.Name) kf.2.content)) },
      ?_, ?_, ?_, ?_⟩
    · simp only [Recorder.NewMultipartRequest, h1, h2, goHttpNewRequest, hp]
    · simp [readMultipart]
    · simp
    · rw [List.map_append, List.map_map, List.map_map]
      exact congrArg₂ (· ++ ·) (List.map_congr_left fun kv _ => rfl)
        (List.map_congr_left fun kf _ => rfl)
  · simp [Recorder.NewMultipartRequest, he]
  · simp [Recorder.NewMultipartRequest, h1, h2]

/-- C6 witness: one scalar field and one file produce a request whose body
reads back as exactly those two parts under the recorded boundary. -/
theorem multipart_roundtrip_witness :
    readMultipart reqMW.contentType reqMW.body =
      some [Part.mk "a" none "1", Part.mk "f" (some "x.txt") "hi"] := by
  obtain ⟨req, hok, hparse, _, _⟩ :=
    (multipart_roundtrip parseUp wfeNone "bnd" recEx "POST" "/upload"
      [("a", "1")] [("f", fileEx)]).1 (by decide) (by decide) "/upload" rfl
  have h2 : recEx.NewMultipartRequest parseUp wfeNone "bnd" "POST" "/upload"
      [("a", "1")] [("f", fileEx)] = Except.ok reqMW := rfl
  rw [hok] at h2
  injection h2 with h3
  rw [← h3]
  exact hparse

/-- C7: `PrintFailure` emits exactly one diagnostic message; it names the
originating request's method and URL path, contains the full normalized body
when that body is non-empty (wrapped by the colorizer first when the owning
recorder's `Colorize` flag is set), and is the explicit empty-body marker
when the body is empty.  The hypothesis `hcw` states the colorizer's
behaviour: it brackets its argument between display-style escape strings. -/
theorem printFailure_diagnostic (cw : String → String)
    (hcw : ∀ s, ∃ a b, cw s = a ++ (s ++ b)) (r : Response) :
    ∃ t, r.PrintFailure cw = [Msg.print t] ∧
      countPrint (r.PrintFailure cw) = 1 ∧
      hasSubstring t r.reqMethod ∧ hasSubstring t r.reqPath ∧
      (r.Body = "" →
        t = r.reqMethod ++ (" request to " ++
          (r.reqPath ++ " failed. Response was empty."))) ∧
      (r.Body ≠ "" →
        hasSubstring t (if r.recColorize then cw r.Body else r.Body) ∧
        hasSubstring t r.Body) := by
  by_cases hb : r.Body = ""
  · refine ⟨r.reqMethod ++ (" request to " ++
        (r.reqPath ++ " failed. Response was empty.")),
      ?_, countPrint_PrintFailure cw r, ?_, ?_, fun _ => rfl, fun hne => absurd hb hne⟩
    · simp [Response.PrintFailure, hb]
    · exact hs_append_right _ _ _ (hs_self _)
    · exact hs_append_left _ _ _ (hs_append_left _ _ _ (hs_append_right _ _ _ (hs_self _)))
  · have hsubBody : hasSubstring (if r.recColorize then cw r.Body else r.Body) r.Body := by
      by_cases hcol : r.recColorize
      · rw [if_pos hcol]
        obtain ⟨a, b, hab⟩ := hcw r.Body
        exact ⟨a, b, hab⟩
      · rw [if_neg hcol]
        exact hs_self _
    have hwrap : hasSubstring (r.reqMethod ++ (" request to " ++ (r.reqPath ++
        (" failed. Response was: \n" ++ (if r.recColorize then cw r.Body else r.Body)))))
        (if r.recColorize then cw r.Body else r.Body) :=
      hs_append_left _ _ _ (hs_append_left _ _ _ (hs_append_left _ _ _
        (hs_append_left _ _ _ (hs_self _))))
    refine ⟨r.reqMethod ++ (" request to " ++ (r.reqPath ++
        (" failed. Response was: \n" ++ (if r.recColorize then cw r.Body else r.Body)))),
      ?_, countPrint_PrintFailure cw r, ?_, ?_, fun he => absurd he hb,
      fun _ => ⟨hwrap, hs_trans _ _ _ hwrap hsubBody⟩⟩
    · simp [Response.PrintFailure, hb, Response.colorBody]
    · exact hs_append_right _ _ _ (hs_self _)
    · exact hs_append_left _ _ _ (hs_append_left _ _ _ (hs_append_right _ _ _ (hs_self _)))

/-- C7 witness: on the concrete response with non-empty body `hello`, the
diagnostic is a single message containing the body. -/
theorem printFailure_diagnostic_witness :
    countPrint (respEx.PrintFailure id) = 1 ∧ respEx.Body ≠ "" := by
  obtain ⟨t, _, hcount, _⟩ := printFailure_diagnostic id
    (fun s => ⟨"", "", by rw [String.append_empty, String.empty_append]; rfl⟩) respEx
  exact ⟨hcount, by decide⟩

/-- C8: the printed-once flag starts unset on every freshly created response
and is monotonic — it never reverts from set to unset — under every sequence
of `ExpectOk`, `ExpectCode`, `ExpectBodyContains`, `PrintFailure` and
`PrintFailureOnce` calls. -/
theorem printed_flag_monotonic (cw : String → String) :
    (∀ rec : Recorder, ∀ req : Request, ∀ h : HttpResp,
      ((rec.newResponse req h).printed) = false) ∧
    (∀ ops : List Op, ∀ r : Response, r.printed = true →
      ((runOps cw ops r).1).printed = true) ∧
    (∀ ops : List Op, ∀ r : Response, ((runOps cw ops r).1).printed = false →
      r.printed = false) := by
  refine ⟨fun rec req h => rfl, fun ops r h => runOps_printed_mono cw ops r h,
    fun ops r h => ?_⟩
  cases hp : r.printed
  · rfl
  · rw [runOps_printed_mono cw ops r hp] at h
    simp at h

/-- C8 witness: a response whose flag is already set keeps it set across a
further `PrintFailure` call. -/
theorem printed_flag_monotonic_witness :
    ((runOps id [Op.printFailure] respPrinted).1).printed = true :=
  (printed_flag_monotonic id).2.1 [Op.printFailure] respPrinted rfl

/-- C9: a passing assertion has no effect — `ExpectCode` with the actual
status, `ExpectOk` on a 200 response and `ExpectBodyContains` with an
occurring substring return the response unchanged and emit nothing — so a
later failing assertion on the same response still triggers the full
diagnostic print. -/
theorem passing_assertion_no_effect (cw : String → String) (r : Response)
    (code code2 : Int) (s : String) :
    (r.StatusCode = code → r.ExpectCode cw code = (r, [])) ∧
    (goContains r.Body s = true → r.ExpectBodyContains cw s = (r, [])) ∧
    (r.StatusCode = 200 → r.ExpectOk cw = (r, [])) ∧
    (r.printed = false → r.StatusCode = code → r.StatusCode ≠ code2 →
      countPrint (runOps cw [Op.expectCode code, Op.expectCode code2] r).2 = 1) := by
  refine ⟨fun h => ExpectCode_eq cw r code h,
    fun h => ExpectBodyContains_pass cw r s h,
    fun h => ExpectCode_eq cw r 200 h, fun hpr heq hne => ?_⟩
  have h1 : applyOp cw r (Op.expectCode code) = (r, []) := by
    simp [applyOp, ExpectCode_eq cw r code heq]
  have hinv := runOps_countPrint cw [Op.expectCode code, Op.expectCode code2]
    (by simp) r
  rw [hpr] at hinv
  simp only [if_neg Bool.false_ne_true, Nat.add_zero] at hinv
  have hfin : ((runOps cw [Op.expectCode code, Op.expectCode code2] r).1).printed
      = true := by
    simp only [runOps, h1]
    simp [applyOp, ExpectCode_ne cw r code2 hne, PrintFailureOnce_printed]
  rw [hfin, if_pos rfl] at hinv
  exact hinv

/-- C9 witness: on the concrete 200 response, a passing `ExpectBodyContains`
is a no-op and a passing `ExpectCode 200` followed by a failing
`ExpectCode 404` prints the diagnostic exactly once. -/
theorem passing_assertion_no_effect_witness :
    respEx.ExpectBodyContains id "hell" = (respEx, []) ∧
    countPrint (runOps id [Op.expectCode 200, Op.expectCode 404] respEx).2 = 1 := by
  have h := passing_assertion_no_effect id respEx 200 404 "hell"
  exact ⟨h.2.1 (by decide), h.2.2.2 (by decide) (by decide) (by decide)⟩

/-- C10: closing a recorder created by `NewURLRecorder` (which owns no
ephemeral server) is safe and has no effect: the nil-server branch is taken,
no shutdown is attempted, and the recorder's state is unchanged. -/
theorem close_without_server_noop (baseURL : String) :
    (NewURLRecorder baseURL).server = none ∧
    Recorder.Close (NewURLRecorder baseURL) = (NewURLRecorder baseURL, false) :=
  ⟨rfl, rfl⟩
